import Mathlib

/-!
Shallow embedding of the ECG-LVSD-Detection dashboard's core fragment
(src/main.tsx): the signal synthesizer `generateECGData`, the
`ECGVisualizer` playback state machine and canvas redraw, and the
`useInterval` periodic-timer hook.
-/

namespace ECG

/-- Playback state of the `ECGVisualizer` component (src/main.tsx lines
308-309): `isPlaying` from `useState(false)`, `offset` from `useState(0)`. -/
structure VisState where
  isPlaying : Bool
  offset : Nat
  deriving DecidableEq

/-- Initial component state: paused, offset 0. -/
def initState : VisState := { isPlaying := false, offset := 0 }

/-- One timer tick (src/main.tsx lines 355-357):
`useInterval(() => { if (isPlaying) setOffset(o => o + 2); }, 50)`. -/
def tick (s : VisState) : VisState :=
  if s.isPlaying then { s with offset := s.offset + 2 } else s

/-- Play/pause button (line 365): `setIsPlaying(!isPlaying)`. -/
def togglePlay (s : VisState) : VisState := { s with isPlaying := !s.isPlaying }

/-- Reset button (line 371): `setOffset(0)`. -/
def resetOffset (s : VisState) : VisState := { s with offset := 0 }

/-- Visible window length (line 343): `Math.min(data.length, 200)`. -/
def visiblePoints (len : Nat) : Nat := min len 200

/-- JavaScript remainder on nonnegative operands: `a % 0` evaluates to
`NaN`, modelled as `none`; otherwise the ordinary remainder. -/
def jsMod (a b : Nat) : Option Nat := if b = 0 then none else some (a % b)

/-- Start index of the visible window (line 344):
`isPlaying ? offset % (data.length - visiblePoints) : 0`. -/
def startIdx (playing : Bool) (offset len : Nat) : Option Nat :=
  if playing then jsMod offset (len - visiblePoints len) else some 0

/-- Signal synthesizer (src/main.tsx lines 138-146). `sinf` abstracts
`Math.sin` and `noise` abstracts the stream of `Math.random()` draws
(one per sample), so the function itself is pure. -/
def generateECGData (sinf : ℚ → ℚ) (noise : ℕ → ℚ) (length : ℕ) : List ℚ :=
  (List.range length).map fun (i : ℕ) =>
    let t : ℚ := (i : ℚ) / 100
    sinf (t * 10) * 0.3 + sinf (t * 25) * 0.2 + sinf (t * 5) * 0.15 +
      (noise i - 0.5) * 0.1

/-- Commands issued to the 2-D drawing context during one redraw. -/
inductive DrawCmd where
  | fillRect (x y w h : ℕ)
  | gridLine (x1 y1 x2 y2 : ℕ)
  | polyline (pts : List (ℚ × Option ℚ))

/-- The y coordinate of polyline point `i` (line 348):
`height / 2 + data[startIdx + i] * (height * 0.4)`. A `none` start index
(NaN) or an out-of-range read (`undefined`) poisons the arithmetic to
NaN, modelled as `none`. -/
def sampleY (data : List ℚ) (start : Option ℕ) (i height : ℕ) : Option ℚ :=
  match start with
  | none => none
  | some s =>
    match data[s + i]? with
    | none => none
    | some v => some ((height : ℚ) / 2 + v * ((height : ℚ) * 0.4))

/-- The polyline points of one redraw (lines 346-351):
`x = (i / visiblePoints) * width`, `y = sampleY`. -/
def polyPoints (data : List ℚ) (start : Option ℕ) (vis width height : ℕ) :
    List (ℚ × Option ℚ) :=
  (List.range vis).map fun (i : ℕ) =>
    (((i : ℚ) / (vis : ℚ)) * (width : ℚ), sampleY data start i height)

/-- Grid line positions: `for (let i = 0; i < limit; i += 20)`. -/
def gridXs (limit : ℕ) : List ℕ := (List.range ((limit + 19) / 20)).map (· * 20)

/-- Vertical grid lines (lines 325-330). -/
def vertGridCmds (width height : ℕ) : List DrawCmd :=
  (gridXs width).map fun x => DrawCmd.gridLine x 0 x height

/-- Horizontal grid lines (lines 331-336). -/
def horizGridCmds (width height : ℕ) : List DrawCmd :=
  (gridXs height).map fun y => DrawCmd.gridLine 0 y width y

/-- One redraw's command list (the `useEffect` body, lines 311-353).
`hasCtx = false` models `!canvas || !ctx`: the effect returns before
issuing any drawing command. -/
def renderECG (hasCtx : Bool) (data : List ℚ) (width height : ℕ)
    (playing : Bool) (offset : ℕ) : List DrawCmd :=
  if hasCtx then
    DrawCmd.fillRect 0 0 width height ::
      (vertGridCmds width height ++ horizGridCmds width height ++
        [DrawCmd.polyline (polyPoints data (startIdx playing offset data.length)
          (visiblePoints data.length) width height)])
  else []

/-- A redraw returns the component state unchanged together with the
drawing commands: the draw effect never writes `offset` or `isPlaying`. -/
def redraw (hasCtx : Bool) (data : List ℚ) (width height : ℕ) (s : VisState) :
    VisState × List DrawCmd :=
  (s, renderECG hasCtx data width height s.isPlaying s.offset)

/-- `useInterval` (src/main.tsx lines 119-132): with delay `none` (null)
no interval is installed, so no ticks fire; with a numeric delay the
callback fires once per elapsed interval. -/
def intervalInvocations (delay : Option ℕ) (elapsed : ℕ) : ℕ :=
  match delay with
  | none => 0
  | some _ => elapsed

/-- Total callback invocations over a sequence of (delay, elapsed-ticks)
phases; each phase reinstalls or clears the interval per its delay. -/
def totalInvocations (phases : List (Option ℕ × ℕ)) : ℕ :=
  (phases.map fun p => intervalInvocations p.1 p.2).sum

/-- Events seen by `useInterval`: the first `useEffect` stores the latest
callback in `savedCallback` (lines 122-124); a timer tick invokes
`savedCallback.current` (line 128). Callbacks are labelled by `ℕ`. -/
inductive IntervalEvent where
  | setCb (f : ℕ)
  | tickEv
  deriving DecidableEq

/-- Run a sequence of events: the state is (current saved callback,
list of callbacks invoked so far, in order). -/
def runInterval (cb0 : ℕ) (evs : List IntervalEvent) : ℕ × List ℕ :=
  evs.foldl
    (fun st e =>
      match e with
      | IntervalEvent.setCb f => (f, st.2)
      | IntervalEvent.tickEv => (st.1, st.2 ++ [st.1]))
    (cb0, [])

/-- The callbacks invoked, in order. -/
def firedCallbacks (cb0 : ℕ) (evs : List IntervalEvent) : List ℕ :=
  (runInterval cb0 evs).2

theorem tick_playing_iterate (off n : ℕ) :
    tick^[n] { isPlaying := true, offset := off } =
      { isPlaying := true, offset := off + 2 * n } := by
  induction n generalizing off with
  | zero => simp
  | succ n ih =>
    rw [Function.iterate_succ_apply]
    have h1 : tick { isPlaying := true, offset := off } =
        { isPlaying := true, offset := off + 2 } := rfl
    rw [h1, ih]
    simp only [VisState.mk.injEq, true_and]
    omega

theorem tick_paused_iterate (off n : ℕ) :
    tick^[n] { isPlaying := false, offset := off } =
      { isPlaying := false, offset := off } := by
  induction n with
  | zero => simp
  | succ n ih =>
    rw [Function.iterate_succ_apply]
    have h1 : tick { isPlaying := false, offset := off } =
        { isPlaying := false, offset := off } := rfl
    rw [h1, ih]

theorem generateECGData_getElem (sinf : ℚ → ℚ) (noise : ℕ → ℚ) (N i : ℕ)
    (hi : i < N) :
    (generateECGData sinf noise N)[i]? =
      some (sinf (((i : ℚ) / 100) * 10) * 0.3 + sinf (((i : ℚ) / 100) * 25) * 0.2 +
        sinf (((i : ℚ) / 100) * 5) * 0.15 + (noise i - 0.5) * 0.1) := by
  unfold generateECGData
  rw [List.getElem?_map, List.getElem?_range hi]
  rfl

/-- Claim C1, counterexample. The claim says every operation that changes the
offset state keeps it in [0, signal length − visible window length), wrapping
modulo that quantity. But the per-tick advance is `setOffset(o => o + 2)` with
no modulo: on the default 500-sample signal (window 200, modulus 300), 150
ticks while Playing leave the offset state at 300, outside [0, 300). -/
theorem C1_counterexample :
    (tick^[150] { isPlaying := true, offset := 0 }).offset = 300 ∧
    ¬ ((tick^[150] { isPlaying := true, offset := 0 }).offset <
        500 - visiblePoints 500) := by
  rw [tick_playing_iterate]
  exact ⟨by norm_num, by decide⟩

/-- Claim C1, amended: the offset state itself is an unbounded counter —
`n` ticks while Playing leave it at `off + 2n`, with no wrap — and it is the
rendered start index `offset % (len − visiblePoints len)` that always lies in
[0, len − visiblePoints len) whenever the window is shorter than the signal. -/
theorem C1_offset_counter_window_wraps (off len n : ℕ) (h : 200 < len) :
    (tick^[n] { isPlaying := true, offset := off }).offset = off + 2 * n ∧
    startIdx true off len = some (off % (len - visiblePoints len)) ∧
    off % (len - visiblePoints len) < len - visiblePoints len := by
  have hpos : 0 < len - visiblePoints len := by unfold visiblePoints; omega
  refine ⟨by rw [tick_playing_iterate], ?_, Nat.mod_lt _ hpos⟩
  unfold startIdx jsMod
  simp [Nat.pos_iff_ne_zero.mp hpos]

/-- Witness for C1's amended theorem at off = 0, len = 500, n = 150. -/
theorem C1_offset_counter_window_wraps_witness :
    (tick^[150] { isPlaying := true, offset := 0 }).offset = 0 + 2 * 150 ∧
    startIdx true 0 500 = some (0 % (500 - visiblePoints 500)) ∧
    0 % (500 - visiblePoints 500) < 500 - visiblePoints 500 :=
  C1_offset_counter_window_wraps 0 500 150 (by decide)

/-- Claim C2, counterexample. In the boundary case W = |S| (here |S| = 100, so
visiblePoints = 100 and the modulus is 0), JavaScript evaluates
`offset % 0` to NaN — modelled as `none` — so the computed start index is not
a number satisfying 0 ≤ startIdx ≤ |S| − W; no valid index is produced at all. -/
theorem C2_counterexample :
    visiblePoints 100 = 100 ∧ startIdx true 0 100 = none := by decide

/-- Claim C2, amended: whenever the visible window is strictly shorter than the
signal (len > 200), the start index computed while Playing — and the start
index 0 while Paused — is a number k with 0 ≤ k ≤ len − visiblePoints len, for
every value of the offset counter. In the boundary case W = |S| the modulus is
zero and the JavaScript remainder is NaN, so no index is produced. -/
theorem C2_startIdx_bounds (playing : Bool) (off len : ℕ) (h : 200 < len) :
    ∃ k, startIdx playing off len = some k ∧ k ≤ len - visiblePoints len := by
  cases playing with
  | false => exact ⟨0, rfl, Nat.zero_le _⟩
  | true =>
    have hpos : 0 < len - visiblePoints len := by unfold visiblePoints; omega
    refine ⟨off % (len - visiblePoints len), ?_, Nat.le_of_lt (Nat.mod_lt _ hpos)⟩
    unfold startIdx jsMod
    simp [Nat.pos_iff_ne_zero.mp hpos]

/-- Witness for C2's amended theorem at playing = true, off = 7, len = 500. -/
theorem C2_startIdx_bounds_witness :
    ∃ k, startIdx true 7 500 = some k ∧ k ≤ 500 - visiblePoints 500 :=
  C2_startIdx_bounds true 7 500 (by decide)

/-- Claim C3: for every non-negative integer N the synthesizer returns an
ordered sequence of exactly N samples. The embedding is a pure function of its
arguments (the host's `Math.sin` and `Math.random` stream are parameters), so
it touches no other state. -/
theorem C3_synthesizer_length (sinf : ℚ → ℚ) (noise : ℕ → ℚ) (N : ℕ) :
    (generateECGData sinf noise N).length = N := by
  unfold generateECGData
  rw [List.length_map, List.length_range]

/-- Claim C4: sample i equals sin(10t)·0.3 + sin(25t)·0.2 + sin(5t)·0.15 at
t = i/100, plus a perturbation ε = (random − 0.5)·0.1 with −0.05 ≤ ε < 0.05,
given that each raw random draw lies in [0, 1). -/
theorem C4_sample_formula (sinf : ℚ → ℚ) (noise : ℕ → ℚ)
    (hn : ∀ j, 0 ≤ noise j ∧ noise j < 1) (N i : ℕ) (hi : i < N) :
    ∃ ε : ℚ,
      (generateECGData sinf noise N)[i]? =
        some (sinf (((i : ℚ) / 100) * 10) * 0.3 + sinf (((i : ℚ) / 100) * 25) * 0.2 +
          sinf (((i : ℚ) / 100) * 5) * 0.15 + ε) ∧
      -(5 / 100 : ℚ) ≤ ε ∧ ε < 5 / 100 := by
  refine ⟨(noise i - 0.5) * 0.1, generateECGData_getElem sinf noise N i hi, ?_, ?_⟩
  · have := (hn i).1
    linarith
  · have := (hn i).2
    linarith

/-- Witness for C4 at sinf = 0, noise = 0, N = 1, i = 0. -/
theorem C4_sample_formula_witness :
    ∃ ε : ℚ,
      (generateECGData (fun _ => 0) (fun _ => 0) 1)[0]? =
        some ((0 : ℚ) * 0.3 + (0 : ℚ) * 0.2 + (0 : ℚ) * 0.15 + ε) ∧
      -(5 / 100 : ℚ) ≤ ε ∧ ε < 5 / 100 :=
  C4_sample_formula (fun _ => 0) (fun _ => 0)
    (fun _ => ⟨le_refl 0, by norm_num⟩) 1 0 (by decide)

/-- Claim C5: a tick while Paused leaves the state unchanged, and the sequence
Play (n ticks), Pause (m ticks), Play resumes from the offset last reached,
off + 2n — never resetting it to 0 — with isPlaying back to true. -/
theorem C5_pause_resume (off n m : ℕ) :
    tick { isPlaying := false, offset := off } = { isPlaying := false, offset := off } ∧
    togglePlay (tick^[m] (togglePlay (tick^[n] { isPlaying := true, offset := off }))) =
      { isPlaying := true, offset := off + 2 * n } := by
  refine ⟨rfl, ?_⟩
  rw [tick_playing_iterate]
  have h1 : togglePlay { isPlaying := true, offset := off + 2 * n } =
      { isPlaying := false, offset := off + 2 * n } := rfl
  rw [h1, tick_paused_iterate]
  rfl

/-- Claim C6: Reset sets the offset to 0 and leaves the Playing/Paused flag —
the only other piece of component state — unchanged, in either state. -/
theorem C6_reset_effect (s : VisState) :
    resetOffset s = { isPlaying := s.isPlaying, offset := 0 } := rfl

/-- Claim C7: with a null delay the timer never invokes its callback — zero
invocations over any elapsed time — and a phase in which delay has
transitioned to null (or the component has unmounted, ending the phase list)
contributes no further invocations. -/
theorem C7_null_delay_never_fires (elapsed t : ℕ) (phases : List (Option ℕ × ℕ)) :
    intervalInvocations none elapsed = 0 ∧
    totalInvocations (phases ++ [(none, t)]) = totalInvocations phases := by
  refine ⟨rfl, ?_⟩
  unfold totalInvocations
  rw [List.map_append, List.sum_append]
  simp [intervalInvocations]

/-- Claim C8: when callback f is registered and then replaced by g before the
next tick, that tick invokes g — the most recently supplied callback — and
not f: the full invocation history gains exactly one entry, g. -/
theorem C8_latest_callback (cb0 f g : ℕ) (evs : List IntervalEvent) :
    firedCallbacks cb0
        (evs ++ [IntervalEvent.setCb f, IntervalEvent.setCb g, IntervalEvent.tickEv]) =
      firedCallbacks cb0 evs ++ [g] := by
  unfold firedCallbacks runInterval
  rw [List.foldl_append]
  rfl

/-- Claim C9: with no drawing context a redraw issues no drawing command and
leaves the component state untouched; with a context available the same
redraw proceeds normally (a non-empty command list), state still untouched. -/
theorem C9_missing_ctx_noop (data : List ℚ) (w h : ℕ) (s : VisState) :
    redraw false data w h s = (s, []) ∧
    (redraw true data w h s).1 = s ∧ (redraw true data w h s).2 ≠ [] := by
  refine ⟨rfl, rfl, ?_⟩
  unfold redraw renderECG
  simp

/-- Claim C10: for a signal longer than 200 samples, every array read
`data[startIdx + i]` of the polyline loop (i < visiblePoints = 200) is at an
index < data.length (and ≥ 0, as a natural number), whether Playing (startIdx
= offset % (length − 200)) or Paused (startIdx = 0): the read never misses. -/
theorem C10_polyline_reads_in_bounds (playing : Bool) (data : List ℚ) (off i : ℕ)
    (hlen : 200 < data.length) (hi : i < visiblePoints data.length) :
    ∃ k, startIdx playing off data.length = some k ∧ k + i < data.length ∧
      data[k + i]? ≠ none := by
  have hvp : visiblePoints data.length = 200 := by unfold visiblePoints; omega
  have hread : ∀ k, k + i < data.length → data[k + i]? ≠ none := by
    intro k hk hnone
    rw [List.getElem?_eq_none_iff] at hnone
    omega
  cases playing with
  | false => exact ⟨0, rfl, by omega, hread 0 (by omega)⟩
  | true =>
    have hpos : 0 < data.length - visiblePoints data.length := by omega
    have hmod : off % (data.length - visiblePoints data.length) <
        data.length - visiblePoints data.length := Nat.mod_lt _ hpos
    refine ⟨off % (data.length - visiblePoints data.length), ?_, by omega, ?_⟩
    · unfold startIdx jsMod
      simp [Nat.pos_iff_ne_zero.mp hpos]
    · exact hread _ (by omega)

/-- Witness for C10 at playing = true, a 201-sample signal, off = 5, i = 7. -/
theorem C10_polyline_reads_in_bounds_witness :
    ∃ k, startIdx true 5 (List.replicate 201 (0 : ℚ)).length = some k ∧
      k + 7 < (List.replicate 201 (0 : ℚ)).length ∧
      (List.replicate 201 (0 : ℚ))[k + 7]? ≠ none :=
  C10_polyline_reads_in_bounds true (List.replicate 201 0) 5 7
    (by rw [List.length_replicate]; norm_num)
    (by rw [List.length_replicate]; norm_num [visiblePoints])

end ECG
